import Mathlib

/-!
Verification of the mcp-remote proxy (TypeScript) against its natural-language
specification, by shallow embedding of the relevant modules in Lean 4.

Embedded from source:
* src/lib/node-oauth-client-provider.ts — NodeOAuthClientProvider: constructor,
  createTLSAgent, getCustomAgent, getEffectiveScope, clientMetadata,
  clientInformation, saveClientInformation, invalidateCredentials,
  getAuthorizationServerMetadata, redirectToAuthorization.
* src/lib/authorization-server-metadata.ts — getMetadataUrl,
  fetchAuthorizationServerMetadata.
* src/proxy.ts — the authInitializer settle delay.

Modelled from the spec (the corresponding source files, src/lib/coordination.ts
and src/lib/utils.ts, are not part of this source snapshot):
* the AuthorizationCoordinator cross-process lock state machine,
* the MessageRelay tool filter,
* the TransportNegotiator fallback order,
* the follower polling loop.

File-system reads, fetch responses and browser-open outcomes are passed in as
explicit oracle arguments, so every definition is executable.
-/

namespace McpRemote

/-! ### Basic data model -/

/-- Contents of files on disk, indexed by path; `none` models a missing or
unreadable file (readFileSync throwing). -/
def FileSystem : Type := String → Option String

/-- src/lib/types.ts TLSClientCertConfig: all fields optional. -/
structure TLSClientCertConfig where
  cert : Option String := none
  key : Option String := none
  ca : Option String := none
  passphrase : Option String := none
  rejectUnauthorized : Option Bool := none
deriving DecidableEq, Repr

/-- The connect options accumulated by createTLSAgent into the undici Agent.
A `none` field was never assigned, so the library default applies. -/
structure TLSOptions where
  cert : Option String := none
  key : Option String := none
  ca : Option String := none
  passphrase : Option String := none
  rejectUnauthorized : Option Bool := none
deriving DecidableEq, Repr

/-- The undici Agent as far as this program configures it: the connect/TLS
options it was constructed with. -/
structure Agent where
  connect : TLSOptions
deriving DecidableEq, Repr

/-- The spec error taxonomy name for a failed certificate/key/CA file load
(the code rethrows the readFileSync error). -/
inductive CertificateLoadError where
  | fileUnreadable (path : String)
deriving DecidableEq, Repr

/-- User-visible log events emitted through log() (debugLog is diagnostic
only and not modelled). -/
inductive LogEvent where
  | loadedClientCert (path : String)
  | loadedClientKey (path : String)
  | loadedCA (path : String)
  | tlsVerifyDisabledWarning
  | emitAuthorizationUrl (url : String)
  | browserOpened
  | browserOpenFailedNotice
deriving DecidableEq, Repr

/-- JS truthiness of an optional string field: configured iff present and
non-empty (an empty string is falsy in the `if (path)` guards). -/
def configuredPath (p : Option String) : Option String :=
  p.bind fun s => if s = "" then none else some s

/-- One `if (path) { tlsOptions.x = readFileSync(path) }` step: `none` when
the field is not configured, the file contents when the read succeeds, and an
error (the rethrown readFileSync failure) when the file is missing. -/
def readConfiguredFile (fs : FileSystem) (p : Option String) :
    Except CertificateLoadError (Option String) :=
  match configuredPath p with
  | none => .ok none
  | some path =>
    match fs path with
    | some bytes => .ok (some bytes)
    | none => .error (.fileUnreadable path)

/-- The log() line emitted on a successful load of a configured file. -/
def loadLog (mk : String → LogEvent) (p : Option String) : List LogEvent :=
  match configuredPath p with
  | none => []
  | some path => [mk path]

/-- NodeOAuthClientProvider.createTLSAgent
(src/lib/node-oauth-client-provider.ts lines 93-151): loads each configured
certificate file in order cert, key, ca — rethrowing the first read failure —
then sets passphrase if truthy and rejectUnauthorized if present (logging a
warning when it is explicitly false), and constructs the Agent. -/
def createTLSAgent (cfg : TLSClientCertConfig) (fs : FileSystem) :
    Except CertificateLoadError (Agent × List LogEvent) :=
  match readConfiguredFile fs cfg.cert with
  | .error e => .error e
  | .ok certBytes =>
  match readConfiguredFile fs cfg.key with
  | .error e => .error e
  | .ok keyBytes =>
  match readConfiguredFile fs cfg.ca with
  | .error e => .error e
  | .ok caBytes =>
    let opts : TLSOptions :=
      { cert := certBytes
        key := keyBytes
        ca := caBytes
        passphrase := configuredPath cfg.passphrase
        rejectUnauthorized := cfg.rejectUnauthorized }
    let warn : List LogEvent :=
      match cfg.rejectUnauthorized with
      | some false => [.tlsVerifyDisabledWarning]
      | _ => []
    .ok ({ connect := opts },
     loadLog .loadedClientCert cfg.cert ++ loadLog .loadedClientKey cfg.key ++
       loadLog .loadedCA cfg.ca ++ warn)

/-- The file paths the configuration references (configured cert, key and CA
paths; passphrase and rejectUnauthorized reference no file). -/
def referencedPaths (cfg : TLSClientCertConfig) : List String :=
  (configuredPath cfg.cert).toList ++ (configuredPath cfg.key).toList ++
    (configuredPath cfg.ca).toList

/-- At least one field of the TLS configuration is configured. -/
def hasConfiguredField (cfg : TLSClientCertConfig) : Prop :=
  cfg.cert ≠ none ∨ cfg.key ≠ none ∨ cfg.ca ≠ none ∨
    cfg.passphrase ≠ none ∨ cfg.rejectUnauthorized ≠ none

/-- Number of TLS-verification-disabled warnings in a log. -/
def warningCount (logs : List LogEvent) : Nat :=
  (logs.filter (· = LogEvent.tlsVerifyDisabledWarning)).length

/-- The verification policy the resulting agent enforces: undici defaults
rejectUnauthorized to true when the option is never set. -/
def effectiveRejectUnauthorized (a : Agent) : Bool :=
  a.connect.rejectUnauthorized.getD true

/-! ### OAuth data model (src/lib/types.ts and the SDK auth schemas),
restricted to the fields the verified operations read or write. -/

/-- RFC 8414 authorization server metadata
(src/lib/authorization-server-metadata.ts lines 8-25); only the fields this
program reads are modelled. -/
structure AuthorizationServerMetadata where
  issuer : String
  authorization_endpoint : Option String := none
  token_endpoint : Option String := none
  scopes_supported : Option (List String) := none
deriving DecidableEq, Repr

/-- OAuth client metadata; the program only ever reads its scope field
(through staticOAuthClientMetadata?.scope). -/
structure OAuthClientMetadata where
  scope : Option String := none
deriving DecidableEq, Repr

/-- OAuth client information (registration response / static client info);
the fields the provider reads. -/
structure OAuthClientInformationFull where
  client_id : String
  scope : Option String := none
deriving DecidableEq, Repr

/-- OAuth token set as persisted in tokens.json. -/
structure OAuthTokens where
  access_token : String
  refresh_token : Option String := none
  expires_in : Option Int := none
deriving DecidableEq, Repr

/-- The per-ServerIdentity credential namespace on disk: client_info.json,
tokens.json, code_verifier.txt. -/
structure CredentialStore where
  clientInfo : Option OAuthClientInformationFull := none
  tokens : Option OAuthTokens := none
  codeVerifier : Option String := none
deriving DecidableEq, Repr

/-- src/lib/types.ts OAuthProviderOptions (fields the provider reads). -/
structure OAuthProviderOptions where
  serverUrl : String
  callbackPort : Nat
  host : String
  callbackPath : Option String := none
  clientName : Option String := none
  staticOAuthClientMetadata : Option OAuthClientMetadata := none
  staticOAuthClientInfo : Option OAuthClientInformationFull := none
  authorizeResource : Option String := none
  serverUrlHash : String
  authorizationServerMetadata : Option AuthorizationServerMetadata := none
  tlsClientCert : Option TLSClientCertConfig := none
deriving DecidableEq, Repr

/-- The mutable state of a NodeOAuthClientProvider instance
(src/lib/node-oauth-client-provider.ts lines 23-63). -/
structure NodeOAuthClientProvider where
  serverUrlHash : String
  callbackPath : String
  clientName : String
  staticOAuthClientMetadata : Option OAuthClientMetadata
  staticOAuthClientInfo : Option OAuthClientInformationFull
  authorizeResource : Option String
  clientInfo : Option OAuthClientInformationFull
  authorizationServerMetadata : Option AuthorizationServerMetadata
  tlsClientCert : Option TLSClientCertConfig
  customAgent : Option Agent
deriving DecidableEq, Repr

/-- The NodeOAuthClientProvider constructor (lines 43-63): copies options,
defaults callbackPath and clientName, and — only when a TLS client-cert
configuration is supplied — builds the custom agent, once, via
createTLSAgent; a load failure propagates out of the constructor. -/
def mkProvider (opts : OAuthProviderOptions) (fs : FileSystem) :
    Except CertificateLoadError NodeOAuthClientProvider :=
  let base : NodeOAuthClientProvider :=
    { serverUrlHash := opts.serverUrlHash
      callbackPath := opts.callbackPath.getD "/oauth/callback"
      clientName := opts.clientName.getD "MCP CLI Client"
      staticOAuthClientMetadata := opts.staticOAuthClientMetadata
      staticOAuthClientInfo := opts.staticOAuthClientInfo
      authorizeResource := opts.authorizeResource
      clientInfo := none
      authorizationServerMetadata := opts.authorizationServerMetadata
      tlsClientCert := opts.tlsClientCert
      customAgent := none }
  match opts.tlsClientCert with
  | none => .ok base
  | some cfg =>
    match createTLSAgent cfg fs with
    | .error e => .error e
    | .ok (agent, _) => .ok { base with customAgent := some agent }

/-- A concrete option set with no TLS configuration, for the C6 scenario. -/
def c6Options : OAuthProviderOptions :=
  { serverUrl := "https://example.com/mcp"
    callbackPort := 3334
    host := "localhost"
    serverUrlHash := "abc123" }

/-- The provider the constructor builds from c6Options (no TLS agent). -/
def c6Provider : NodeOAuthClientProvider :=
  { serverUrlHash := "abc123"
    callbackPath := "/oauth/callback"
    clientName := "MCP CLI Client"
    staticOAuthClientMetadata := none
    staticOAuthClientInfo := none
    authorizeResource := none
    clientInfo := none
    authorizationServerMetadata := none
    tlsClientCert := none
    customAgent := none }

/-- getCustomAgent (lines 157-159): returns the stored agent, or none. -/
def getCustomAgent (p : NodeOAuthClientProvider) : Option Agent :=
  p.customAgent

/-- clientInformation (lines 212-231): static info wins and is cached in
the instance; otherwise client_info.json is read and cached when present. -/
def clientInformation (p : NodeOAuthClientProvider) (store : CredentialStore) :
    NodeOAuthClientProvider × Option OAuthClientInformationFull :=
  match p.staticOAuthClientInfo with
  | some info => ({ p with clientInfo := some info }, some info)
  | none =>
    match store.clientInfo with
    | some ci => ({ p with clientInfo := some ci }, some ci)
    | none => (p, none)

/-- saveClientInformation (lines 237-241). -/
def saveClientInformation (p : NodeOAuthClientProvider)
    (store : CredentialStore) (ci : OAuthClientInformationFull) :
    NodeOAuthClientProvider × CredentialStore :=
  ({ p with clientInfo := some ci }, { store with clientInfo := some ci })

/-- readTokens (lines 247-278): a pure read of tokens.json. -/
def readTokens (store : CredentialStore) : Option OAuthTokens :=
  store.tokens

/-- saveTokens (lines 284-304). -/
def saveTokens (store : CredentialStore) (t : OAuthTokens) : CredentialStore :=
  { store with tokens := some t }

/-- saveCodeVerifier (lines 341-344). -/
def saveCodeVerifier (store : CredentialStore) (v : String) : CredentialStore :=
  { store with codeVerifier := some v }

/-- The four credential scopes of invalidateCredentials. -/
inductive CredScope where
  | all | client | tokens | verifier
deriving DecidableEq, Repr

/-- invalidateCredentials (lines 361-394). -/
def invalidateCredentials (p : NodeOAuthClientProvider)
    (store : CredentialStore) (scope : CredScope) :
    NodeOAuthClientProvider × CredentialStore :=
  match scope with
  | .all => ({ p with clientInfo := none },
      { store with clientInfo := none, tokens := none, codeVerifier := none })
  | .client => ({ p with clientInfo := none }, { store with clientInfo := none })
  | .tokens => (p, { store with tokens := none })
  | .verifier => (p, { store with codeVerifier := none })

/-- getAuthorizationServerMetadata (lines 165-185): returns the cached
metadata, else caches and returns the fetch result (a failed fetch is caught
and yields none). -/
def getAuthorizationServerMetadataOp (p : NodeOAuthClientProvider)
    (fetched : Option AuthorizationServerMetadata) :
    NodeOAuthClientProvider × Option AuthorizationServerMetadata :=
  match p.authorizationServerMetadata with
  | some md => (p, some md)
  | none =>
    ({ p with authorizationServerMetadata := fetched }, fetched)

/-! ### Effective scope selection -/

/-- Priority 3 and 4 of getEffectiveScope (lines 198-205): the server's
supported scopes joined with spaces when present and non-empty, else the
hardcoded default. -/
def scopeFromServerMetadata (p : NodeOAuthClientProvider) : String :=
  match p.authorizationServerMetadata with
  | some md =>
    match md.scopes_supported with
    | some scopes =>
      if 0 < scopes.length then String.intercalate " " scopes
      else "openid email profile"
    | none => "openid email profile"
  | none => "openid email profile"

/-- Priority 2 onward of getEffectiveScope (lines 193-205): the scope from
the registered client information when non-blank. -/
def scopeFromClientInfo (p : NodeOAuthClientProvider) : String :=
  match p.clientInfo.bind OAuthClientInformationFull.scope with
  | some s => if 0 < s.trim.length then s else scopeFromServerMetadata p
  | none => scopeFromServerMetadata p

/-- getEffectiveScope (lines 187-206), mirroring the source conditions:
each guard is the JS truthiness test conjoined with the trim-length check
(for a string these coincide, since an empty string trims to length 0). -/
def getEffectiveScope (p : NodeOAuthClientProvider) : String :=
  match p.staticOAuthClientMetadata.bind OAuthClientMetadata.scope with
  | some s => if 0 < s.trim.length then s else scopeFromClientInfo p
  | none => scopeFromClientInfo p

/-- The scope field of the clientMetadata getter (lines 69-83): the literal
fields and the staticOAuthClientMetadata spread are written first, and the
final entry sets scope to the effective scope, so the object's scope is
always the effective scope. Only that field is modelled. -/
def clientMetadataScope (p : NodeOAuthClientProvider) : String :=
  getEffectiveScope p

/-- The four-level scope priority as the specification words it: a
non-whitespace scope from the static client metadata wins; otherwise a
non-whitespace scope from the registered client information; otherwise the
server's supported scopes joined with single spaces when non-empty;
otherwise the constant default. -/
def effectiveScopeSpec (p : NodeOAuthClientProvider) : String :=
  let staticScope :=
    (p.staticOAuthClientMetadata.bind OAuthClientMetadata.scope).filter
      (fun s => s.trim ≠ "")
  let registeredScope :=
    (p.clientInfo.bind OAuthClientInformationFull.scope).filter
      (fun s => s.trim ≠ "")
  let serverScope :=
    p.authorizationServerMetadata.bind fun md =>
      md.scopes_supported.bind fun scopes =>
        if scopes ≠ [] then some (String.intercalate " " scopes) else none
  (staticScope.or (registeredScope.or serverScope)).getD "openid email profile"

/-! ### The authorization URL and redirectToAuthorization -/

/-- A URL with its query parameters, as manipulated through
URLSearchParams.set. -/
structure AuthUrl where
  base : String
  params : List (String × String)
deriving DecidableEq, Repr

/-- URLSearchParams.set: after the call the key maps to exactly this value. -/
def setParam (u : AuthUrl) (k v : String) : AuthUrl :=
  { u with params := u.params.filter (fun kv => kv.1 ≠ k) ++ [(k, v)] }

/-- URLSearchParams.get: the first binding of the key, if any. -/
def findValue (k : String) : List (String × String) → Option String
  | [] => none
  | (k2, v) :: rest => if k2 = k then some v else findValue k rest

/-- Query-parameter lookup (first binding of the key). -/
def getParam (u : AuthUrl) (k : String) : Option String :=
  findValue k u.params

/-- Outcome of the call to open(): ok, or the error it rejects with. -/
def BrowserOutcome : Type := Except String Unit

/-- redirectToAuthorization (lines 310-335): sets the resource parameter when
configured, sets the scope parameter to the effective scope, prints the
authorization URL for the user, then best-effort opens a browser — the catch
swallows an open() failure, logging a manual-copy notice instead, and the
method returns normally either way with the final URL in force. -/
def redirectToAuthorization (p : NodeOAuthClientProvider) (authorizationUrl : AuthUrl)
    (browser : BrowserOutcome) : AuthUrl × List LogEvent :=
  let url1 :=
    match p.authorizeResource with
    | some r => setParam authorizationUrl "resource" r
    | none => authorizationUrl
  let url2 := setParam url1 "scope" (getEffectiveScope p)
  let tail :=
    match browser with
    | .ok _ => [LogEvent.browserOpened]
    | .error _ => [LogEvent.browserOpenFailedNotice]
  (url2, LogEvent.emitAuthorizationUrl url2.base :: tail)

/-! ### Authorization server metadata (src/lib/authorization-server-metadata.ts) -/

/-- The pieces of a parsed absolute URL that getMetadataUrl uses. -/
structure URLParts where
  scheme : String
  hostAndPort : String
  pathAndRest : String
deriving DecidableEq, Repr

/-- Split the input at the first scheme separator; the accumulator holds the
scheme characters scanned so far, reversed. -/
def splitSchemeAux : List Char → List Char → Option (List Char × List Char)
  | acc, ':' :: '/' :: '/' :: rest => some (acc.reverse, rest)
  | acc, c :: rest => splitSchemeAux (c :: acc) rest
  | _, [] => none

/-- Model of the WHATWG URL constructor, restricted to the hierarchical
scheme://host[:port][/path] shape the program's server URLs take; `none`
models the constructor throwing TypeError on an unparsable input (any string
without a scheme separator, an empty or non-alphabetic scheme, or an empty
host). -/
def parseURL (s : String) : Option URLParts :=
  match splitSchemeAux [] s.data with
  | none => none
  | some (schemeChars, restChars) =>
    let hostChars := restChars.takeWhile (fun c => c ≠ '/')
    if schemeChars ≠ [] ∧ schemeChars.all Char.isAlpha ∧ hostChars ≠ [] then
      some { scheme := String.mk schemeChars
             hostAndPort := String.mk hostChars
             pathAndRest := String.mk (restChars.drop hostChars.length) }
    else none

/-- The URL constructor throwing, propagated by getMetadataUrl. -/
inductive URLError where
  | invalidURL (input : String)
deriving DecidableEq, Repr

/-- getMetadataUrl (lines 32-40): origin of the server URL plus the RFC 8414
well-known path; the URL constructor runs unguarded, so an unparsable server
URL raises. -/
def getMetadataUrl (serverUrl : String) : Except URLError String :=
  match parseURL serverUrl with
  | none => .error (.invalidURL serverUrl)
  | some u =>
    .ok (u.scheme ++ "://" ++ u.hostAndPort ++
      "/.well-known/oauth-authorization-server")

/-- What the fetch of the metadata URL did: rejected (network error, timeout,
abort), or returned a response with an ok flag, a status, and a body whose
JSON parse may itself fail. -/
inductive FetchOutcome where
  | networkError (message : String)
  | response (ok : Bool) (status : Nat)
      (body : Except String AuthorizationServerMetadata)
deriving Repr

/-- fetchAuthorizationServerMetadata (lines 48-95): getMetadataUrl runs
before the try block, so a URL-constructor error propagates to the caller;
inside the try, a non-ok response yields undefined, a parsed body is
returned, and any rejection (network, timeout, JSON parse) is caught and
yields undefined. -/
def fetchAuthorizationServerMetadata (serverUrl : String) (outcome : FetchOutcome) :
    Except URLError (Option AuthorizationServerMetadata) :=
  match getMetadataUrl serverUrl with
  | .error e => .error e
  | .ok _ =>
    .ok (match outcome with
      | .networkError _ => none
      | .response ok _ body =>
        if ok then
          match body with
          | .ok md => some md
          | .error _ => none
        else none)

/-! ### MessageRelay (spec-modelled) -/

/-- Modelled from the spec: the framed messages the MessageRelay of
src/lib/utils.ts (mcpProxy, not part of this source snapshot) routes — a
request naming a tool, the synthetic rejection answer, and all other
traffic, which the relay passes through without inspection. -/
inductive RelayMessage where
  | toolRequest (id : Nat) (tool : String) (payload : String)
  | rejection (id : Nat) (tool : String)
  | otherTraffic (payload : String)
deriving DecidableEq, Repr

/-- Modelled from the spec: the synthetic rejection answering an intercepted
request for an ignored tool. -/
def syntheticRejection (id : Nat) (tool : String) : RelayMessage :=
  .rejection id tool

/-- Modelled from the spec: mcpProxy routing for a message arriving from the
local side (src/lib/utils.ts is not part of this source snapshot). Returns
(message forwarded to the remote side, synthetic answer sent back locally):
a request naming a tool in ignoredTools is intercepted and answered locally,
never forwarded; everything else is forwarded unmodified. -/
def relayFromLocal (ignoredTools : List String) (m : RelayMessage) :
    Option RelayMessage × Option RelayMessage :=
  match m with
  | .toolRequest id tool _ =>
    if tool ∈ ignoredTools then (none, some (syntheticRejection id tool))
    else (some m, none)
  | _ => (some m, none)

/-- Modelled from the spec: mcpProxy routing for a message arriving from the
remote side — always forwarded to the local side unmodified. -/
def relayFromRemote (_ignoredTools : List String) (m : RelayMessage) :
    Option RelayMessage :=
  some m

/-! ### TransportNegotiator (spec-modelled) -/

/-- The two remote transport kinds. -/
inductive TransportKind where
  | httpStream | sse
deriving DecidableEq, Repr

/-- The transport strategies of src/lib/utils.ts TransportStrategy. -/
inductive Strategy where
  | httpFirst | httpOnly | sseFirst | sseOnly
deriving DecidableEq, Repr

/-- Outcome of attempting one transport kind: accepted, or the well-defined
negative signal (rejection status or negotiation failure). -/
inductive AttemptOutcome where
  | accepted | rejected
deriving DecidableEq, Repr

/-- Modelled from the spec: the finite, explicit fallback set of
connectToRemoteServer (src/lib/utils.ts, not part of this source snapshot) —
http-first tries the streaming-HTTP transport then the event-stream
transport once; sse-first reverses the order; the restricted strategies
disable fallback. -/
def fallbackOrder : Strategy → List TransportKind
  | .httpFirst => [.httpStream, .sse]
  | .httpOnly => [.httpStream]
  | .sseFirst => [.sse, .httpStream]
  | .sseOnly => [.sse]

/-- Modelled from the spec: try each transport kind of the fallback list in
order, stopping at the first acceptance. Returns the list of kinds actually
attempted and the kind that connected, if any. -/
def tryTransports (outcome : TransportKind → AttemptOutcome) :
    List TransportKind → List TransportKind × Option TransportKind
  | [] => ([], none)
  | k :: rest =>
    match outcome k with
    | .accepted => ([k], some k)
    | .rejected =>
      let r := tryTransports outcome rest
      (k :: r.1, r.2)

/-- Modelled from the spec: connectToRemoteServer's transport negotiation,
as a function of the strategy and of each transport kind's outcome. -/
def connectToRemoteServer (strategy : Strategy)
    (outcome : TransportKind → AttemptOutcome) :
    List TransportKind × Option TransportKind :=
  tryTransports outcome (fallbackOrder strategy)

/-! ### Follower polling and the authInitializer settle delay -/

/-- The settle delay of src/proxy.ts authInitializer (line 108): the fixed
1000 ms wait applied when authentication was completed by another instance. -/
def authInitializerSettleDelayMs : Nat := 1000

/-- src/proxy.ts authInitializer (lines 97-115): the delay applied before
the tokens from disk are used — the settle margin exactly when
skipBrowserAuth reports that another instance completed the flow. -/
def authInitializerDelayMs (skipBrowserAuth : Bool) : Nat :=
  if skipBrowserAuth then authInitializerSettleDelayMs else 0

/-- Modelled from the spec: the follower's bounded poll of the credential
store (src/lib/coordination.ts is not part of this source snapshot). Scans
the store's contents over time from instant t for the given number of
remaining poll instants, returning the first instant at which a TokenSet is
observed. -/
def firstTokenObservation (store : Nat → Option OAuthTokens) :
    Nat → Nat → Option Nat
  | _, 0 => none
  | t, r + 1 =>
    if (store t).isSome then some t else firstTokenObservation store (t + 1) r

/-- Modelled from the spec: a follower run — poll the store for a TokenSet
bounded by the caller's timeout (instants 0..timeout); on timeout fail;
after first observing it, apply the settle margin and only then read the
tokens from disk. Returns the read instant and what the read returned. -/
def followerAwaitTokens (store : Nat → Option OAuthTokens)
    (timeout settle : Nat) : Option (Nat × Option OAuthTokens) :=
  match firstTokenObservation store 0 (timeout + 1) with
  | none => none
  | some tObs => some (tObs + settle, store (tObs + settle))

/-! ### AuthorizationCoordinator (spec-modelled) -/

/-- Modelled from the spec: the AuthorizationLock lease — holder id plus
expiry, never a plain boolean (src/lib/coordination.ts is not part of this
source snapshot). -/
structure Lease where
  holder : Nat
  expiry : Nat
deriving DecidableEq, Repr

/-- Phase of one instance's initializeAuth call. -/
inductive AuthPhase where
  | start | leading | following | done | failed
deriving DecidableEq, Repr

/-- One instance: its phase, and whether it ever bound the callback
listener / launched a browser. -/
structure InstState where
  phase : AuthPhase
  boundListener : Bool
  launchedBrowser : Bool
deriving DecidableEq, Repr

/-- Modelled from the spec: the shared state of all concurrently running
instances for one ServerIdentity — the clock, the lease lock, whether a
TokenSet is persisted in the shared credential store, and each instance's
local state (indexed by instance id). -/
structure CoordState where
  now : Nat
  lock : Option Lease
  storeHasToken : Bool
  inst : Nat → InstState

/-- All instances at start, no cached token, lock free. -/
def initCoordState : CoordState :=
  { now := 0
    lock := none
    storeHasToken := false
    inst := fun _ => { phase := .start, boundListener := false, launchedBrowser := false } }

/-- The lock can be acquired: free, or its lease has expired. -/
def lockAvailable (s : CoordState) : Prop :=
  match s.lock with
  | none => True
  | some l => l.expiry ≤ s.now

/-- Release the lock only if this instance still holds it. -/
def releaseIfHeldBy (lock : Option Lease) (i : Nat) : Option Lease :=
  match lock with
  | some l => if l.holder = i then none else some l
  | none => none

/-- Modelled from the spec: one step of the cross-process coordination
(spec section 4.1). An instance at start returns immediately on a cached
token; otherwise it either acquires the available lock — becoming leader,
binding the callback listener and launching the browser — or observes a live
lease held elsewhere and becomes a follower. A leader finishes (persisting
the TokenSet and releasing the lock) or times out (releasing the lock only
if it still holds it); a follower observes the persisted TokenSet or times
out. Time passes by discrete ticks. -/
inductive CoordStep (leaseLen : Nat) : CoordState → CoordState → Prop where
  | tick (s : CoordState) :
      CoordStep leaseLen s { s with now := s.now + 1 }
  | cachedToken (s : CoordState) (i : Nat) :
      (s.inst i).phase = .start → s.storeHasToken = true →
      CoordStep leaseLen s
        { s with inst := Function.update s.inst i { s.inst i with phase := .done } }
  | acquire (s : CoordState) (i : Nat) :
      (s.inst i).phase = .start → s.storeHasToken = false → lockAvailable s →
      CoordStep leaseLen s
        { s with
          lock := some { holder := i, expiry := s.now + leaseLen }
          inst := Function.update s.inst i
            { phase := .leading, boundListener := true, launchedBrowser := true } }
  | becomeFollower (s : CoordState) (i : Nat) (l : Lease) :
      (s.inst i).phase = .start → s.lock = some l → s.now < l.expiry →
      l.holder ≠ i →
      CoordStep leaseLen s
        { s with inst := Function.update s.inst i { s.inst i with phase := .following } }
  | leaderFinish (s : CoordState) (i : Nat) (l : Lease) :
      (s.inst i).phase = .leading → s.lock = some l → l.holder = i →
      CoordStep leaseLen s
        { s with
          lock := none
          storeHasToken := true
          inst := Function.update s.inst i { s.inst i with phase := .done } }
  | leaderTimeout (s : CoordState) (i : Nat) :
      (s.inst i).phase = .leading →
      CoordStep leaseLen s
        { s with
          lock := releaseIfHeldBy s.lock i
          inst := Function.update s.inst i { s.inst i with phase := .failed } }
  | followerObserve (s : CoordState) (i : Nat) :
      (s.inst i).phase = .following → s.storeHasToken = true →
      CoordStep leaseLen s
        { s with inst := Function.update s.inst i { s.inst i with phase := .done } }
  | followerTimeout (s : CoordState) (i : Nat) :
      (s.inst i).phase = .following →
      CoordStep leaseLen s
        { s with inst := Function.update s.inst i { s.inst i with phase := .failed } }

/-- Reachability from the all-start, no-token initial state. -/
def CoordReachable (leaseLen : Nat) (s : CoordState) : Prop :=
  Relation.ReflTransGen (CoordStep leaseLen) initCoordState s

/-- Instance i is, at this instant, the leader of an interactive
authorization flow: it is driving the flow and holds the live lease. -/
def isActiveLeader (s : CoordState) (i : Nat) : Prop :=
  (s.inst i).phase = .leading ∧
    ∃ l, s.lock = some l ∧ l.holder = i ∧ s.now < l.expiry

/-- The coordination invariant: a live lease's holder is in the leading
phase; instances at start or following have bound no listener and launched
no browser; a leading instance bound the listener and launched the
browser. -/
structure CoordInv (s : CoordState) : Prop where
  liveHolderLeading : ∀ l, s.lock = some l → s.now < l.expiry →
    (s.inst l.holder).phase = .leading
  startClean : ∀ i, (s.inst i).phase = .start →
    (s.inst i).boundListener = false ∧ (s.inst i).launchedBrowser = false
  followerClean : ∀ i, (s.inst i).phase = .following →
    (s.inst i).boundListener = false ∧ (s.inst i).launchedBrowser = false
  leaderFlags : ∀ i, (s.inst i).phase = .leading →
    (s.inst i).boundListener = true ∧ (s.inst i).launchedBrowser = true

/-- The instance predicate of the startClean / followerClean fields. -/
def cleanFor (ph : AuthPhase) (ist : InstState) : Prop :=
  ist.phase = ph → ist.boundListener = false ∧ ist.launchedBrowser = false

/-- The instance predicate of the leaderFlags field. -/
def flagsFor (ist : InstState) : Prop :=
  ist.phase = .leading → ist.boundListener = true ∧ ist.launchedBrowser = true

/-- A concrete two-instance scenario: instance 0 has acquired the lock
(lease length 10). -/
def c1MidState : CoordState :=
  { now := 0
    lock := some { holder := 0, expiry := 10 }
    storeHasToken := false
    inst := Function.update
      (fun _ => { phase := .start, boundListener := false, launchedBrowser := false }) 0
      { phase := .leading, boundListener := true, launchedBrowser := true } }

/-- The scenario continued: instance 1 observed the live lease and became a
follower. -/
def c1DemoState : CoordState :=
  { c1MidState with
    inst := Function.update c1MidState.inst 1
      { c1MidState.inst 1 with phase := .following } }

/-- A pointwise property of instance states survives a pointwise update that
itself satisfies it. -/
theorem forall_update {f : Nat → InstState} {i : Nat} {v : InstState}
    (Q : InstState → Prop) (hold : ∀ j, Q (f j)) (hv : Q v) :
    ∀ j, Q (Function.update f i v j) := by
  intro j
  by_cases hji : j = i
  · subst hji; rw [Function.update_same]; exact hv
  · rw [Function.update_noteq hji]; exact hold j

theorem coordInv_init : CoordInv initCoordState := by
  refine ⟨?_, ?_, ?_, ?_⟩
  · intro l hl _
    exact Option.noConfusion hl
  · intro _ _
    exact ⟨rfl, rfl⟩
  · intro i h
    exact AuthPhase.noConfusion h
  · intro i h
    exact AuthPhase.noConfusion h

/-- Inversion for releaseIfHeldBy: a lock still present after the release
was present before and is held by someone else. -/
theorem releaseIfHeldBy_eq_some {lock : Option Lease} {i : Nat} {l0 : Lease}
    (h : releaseIfHeldBy lock i = some l0) : lock = some l0 ∧ l0.holder ≠ i := by
  cases lock with
  | none => exact Option.noConfusion h
  | some l1 =>
    simp only [releaseIfHeldBy] at h
    by_cases hh : l1.holder = i
    · rw [if_pos hh] at h
      exact Option.noConfusion h
    · rw [if_neg hh] at h
      injection h with e
      subst e
      exact ⟨rfl, hh⟩

theorem coordInv_step {leaseLen : Nat} {s t : CoordState} (hs : CoordInv s)
    (h : CoordStep leaseLen s t) : CoordInv t := by
  cases h with
  | tick =>
    exact ⟨fun l hl hexp => hs.liveHolderLeading l hl (Nat.lt_of_succ_lt hexp),
      hs.startClean, hs.followerClean, hs.leaderFlags⟩
  | cachedToken i hstart htok =>
    refine ⟨?_, ?_, ?_, ?_⟩
    · intro l hl hexp
      have hph := hs.liveHolderLeading l hl hexp
      have hne : l.holder ≠ i := by
        intro e
        rw [e, hstart] at hph
        exact AuthPhase.noConfusion hph
      show ((Function.update s.inst i _) l.holder).phase = .leading
      rw [Function.update_noteq hne]
      exact hph
    · exact forall_update (cleanFor .start) hs.startClean (by intro h; simp at h)
    · exact forall_update (cleanFor .following) hs.followerClean (by intro h; simp at h)
    · exact forall_update flagsFor hs.leaderFlags (by intro h; simp at h)
  | acquire i hstart htok havail =>
    refine ⟨?_, ?_, ?_, ?_⟩
    · intro l hl _
      injection hl with e
      subst e
      show ((Function.update s.inst i _) _).phase = .leading
      simp [Function.update_apply]
    · exact forall_update (cleanFor .start) hs.startClean (by intro h; simp at h)
    · exact forall_update (cleanFor .following) hs.followerClean (by intro h; simp at h)
    · exact forall_update flagsFor hs.leaderFlags (fun _ => ⟨rfl, rfl⟩)
  | becomeFollower i l hstart hlock hlive hne =>
    refine ⟨?_, ?_, ?_, ?_⟩
    · intro l0 hl0 hexp
      have hph := hs.liveHolderLeading l0 hl0 hexp
      have hne0 : l0.holder ≠ i := by
        intro e
        rw [e, hstart] at hph
        exact AuthPhase.noConfusion hph
      show ((Function.update s.inst i _) l0.holder).phase = .leading
      rw [Function.update_noteq hne0]
      exact hph
    · exact forall_update (cleanFor .start) hs.startClean (by intro h; simp at h)
    · exact forall_update (cleanFor .following) hs.followerClean
        (fun _ => hs.startClean i hstart)
    · exact forall_update flagsFor hs.leaderFlags (by intro h; simp at h)
  | leaderFinish i l hlead hlock hhold =>
    refine ⟨?_, ?_, ?_, ?_⟩
    · intro l0 hl0 _
      exact Option.noConfusion hl0
    · exact forall_update (cleanFor .start) hs.startClean (by intro h; simp at h)
    · exact forall_update (cleanFor .following) hs.followerClean (by intro h; simp at h)
    · exact forall_update flagsFor hs.leaderFlags (by intro h; simp at h)
  | leaderTimeout i hlead =>
    refine ⟨?_, ?_, ?_, ?_⟩
    · intro l0 hl0 hexp
      obtain ⟨hsl, hne⟩ := releaseIfHeldBy_eq_some hl0
      have hph := hs.liveHolderLeading l0 hsl hexp
      show ((Function.update s.inst i _) l0.holder).phase = .leading
      rw [Function.update_noteq hne]
      exact hph
    · exact forall_update (cleanFor .start) hs.startClean (by intro h; simp at h)
    · exact forall_update (cleanFor .following) hs.followerClean (by intro h; simp at h)
    · exact forall_update flagsFor hs.leaderFlags (by intro h; simp at h)
  | followerObserve i hfoll htok =>
    refine ⟨?_, ?_, ?_, ?_⟩
    · intro l0 hl0 hexp
      have hph := hs.liveHolderLeading l0 hl0 hexp
      have hne : l0.holder ≠ i := by
        intro e
        rw [e, hfoll] at hph
        exact AuthPhase.noConfusion hph
      show ((Function.update s.inst i _) l0.holder).phase = .leading
      rw [Function.update_noteq hne]
      exact hph
    · exact forall_update (cleanFor .start) hs.startClean (by intro h; simp at h)
    · exact forall_update (cleanFor .following) hs.followerClean (by intro h; simp at h)
    · exact forall_update flagsFor hs.leaderFlags (by intro h; simp at h)
  | followerTimeout i hfoll =>
    refine ⟨?_, ?_, ?_, ?_⟩
    · intro l0 hl0 hexp
      have hph := hs.liveHolderLeading l0 hl0 hexp
      have hne : l0.holder ≠ i := by
        intro e
        rw [e, hfoll] at hph
        exact AuthPhase.noConfusion hph
      show ((Function.update s.inst i _) l0.holder).phase = .leading
      rw [Function.update_noteq hne]
      exact hph
    · exact forall_update (cleanFor .start) hs.startClean (by intro h; simp at h)
    · exact forall_update (cleanFor .following) hs.followerClean (by intro h; simp at h)
    · exact forall_update flagsFor hs.leaderFlags (by intro h; simp at h)

theorem coordInv_reachable {leaseLen : Nat} {s : CoordState}
    (h : CoordReachable leaseLen s) : CoordInv s := by
  induction h with
  | refl => exact coordInv_init
  | tail _ hstep ih => exact coordInv_step ih hstep

/-- C1: across concurrently running instances sharing one credential store
and one ServerIdentity, at most one instance is at any instant the leader of
an interactive authorization flow — in every state reachable from N
concurrent initializeAuth calls with no cached token, at most one instance
is the active leader; the active leader is the one that bound the callback
listener and launched the browser; and every follower polls the store having
bound no listener and launched no browser. -/
theorem C1_at_most_one_interactive_leader (leaseLen : Nat) (s : CoordState)
    (h : CoordReachable leaseLen s) :
    (∀ i j, isActiveLeader s i → isActiveLeader s j → i = j) ∧
    (∀ i, isActiveLeader s i →
      (s.inst i).boundListener = true ∧ (s.inst i).launchedBrowser = true) ∧
    (∀ i, (s.inst i).phase = .following →
      (s.inst i).boundListener = false ∧ (s.inst i).launchedBrowser = false) := by
  have inv := coordInv_reachable h
  refine ⟨?_, ?_, inv.followerClean⟩
  · rintro i j ⟨_, l1, hl1, hh1, _⟩ ⟨_, l2, hl2, hh2, _⟩
    rw [hl1] at hl2
    injection hl2 with e
    rw [← hh1, ← hh2, e]
  · rintro i ⟨hph, _⟩
    exact inv.leaderFlags i hph

/-- Witness for C1 at a concrete reachable two-instance state: instance 0
acquired the lock and leads, instance 1 follows. -/
theorem C1_at_most_one_interactive_leader_witness :
    (∀ i j, isActiveLeader c1DemoState i → isActiveLeader c1DemoState j → i = j) ∧
    (∀ i, isActiveLeader c1DemoState i →
      (c1DemoState.inst i).boundListener = true ∧
        (c1DemoState.inst i).launchedBrowser = true) ∧
    (∀ i, (c1DemoState.inst i).phase = .following →
      (c1DemoState.inst i).boundListener = false ∧
        (c1DemoState.inst i).launchedBrowser = false) :=
  C1_at_most_one_interactive_leader 10 c1DemoState (by
    have h1 : CoordStep 10 initCoordState c1MidState :=
      CoordStep.acquire initCoordState 0 rfl rfl trivial
    have h2 : CoordStep 10 c1MidState c1DemoState :=
      CoordStep.becomeFollower c1MidState 1 { holder := 0, expiry := 10 }
        rfl rfl (by decide) (by decide)
    exact Relation.ReflTransGen.tail (Relation.ReflTransGen.single h1) h2)

/-- C2: a request from the local side naming a tool in ignoredTools is
answered locally with the synthetic rejection and never forwarded to the
remote transport; every other message, in both directions, is forwarded
unmodified. -/
theorem C2_relay_filters_ignored_tools (ignoredTools : List String)
    (m : RelayMessage) :
    (∀ id tool payload, m = .toolRequest id tool payload →
      tool ∈ ignoredTools →
      relayFromLocal ignoredTools m = (none, some (syntheticRejection id tool))) ∧
    (∀ id tool payload, m = .toolRequest id tool payload →
      tool ∉ ignoredTools →
      relayFromLocal ignoredTools m = (some m, none)) ∧
    ((∀ id tool payload, m ≠ .toolRequest id tool payload) →
      relayFromLocal ignoredTools m = (some m, none)) ∧
    relayFromRemote ignoredTools m = some m := by
  refine ⟨?_, ?_, ?_, rfl⟩
  · rintro id tool payload rfl hmem
    simp [relayFromLocal, hmem]
  · rintro id tool payload rfl hmem
    simp [relayFromLocal, hmem]
  · intro hne
    cases m with
    | toolRequest id tool payload => exact absurd rfl (hne id tool payload)
    | rejection id tool => rfl
    | otherTraffic payload => rfl

/-- Witness for C2 with ignoredTools = [danger]: a local call to danger is
rejected locally and not forwarded; a call to another tool passes through
unmodified. -/
theorem C2_relay_filters_ignored_tools_witness :
    relayFromLocal ["danger"] (.toolRequest 1 "danger" "p") =
      (none, some (syntheticRejection 1 "danger")) ∧
    relayFromLocal ["danger"] (.toolRequest 2 "other" "p") =
      (some (.toolRequest 2 "other" "p"), none) :=
  ⟨(C2_relay_filters_ignored_tools ["danger"] (.toolRequest 1 "danger" "p")).1
      1 "danger" "p" rfl (by decide),
   (C2_relay_filters_ignored_tools ["danger"] (.toolRequest 2 "other" "p")).2.1
      2 "other" "p" rfl (by decide)⟩

/-- C4: under the http-first strategy, if the streaming-HTTP transport is
rejected, connectToRemoteServer falls back exactly once to the event-stream
transport and never re-attempts the HTTP transport: the attempted list is
exactly [httpStream, sse], each kind attempted once, and the outcome is
the event-stream attempt's. -/
theorem C4_http_first_falls_back_once (outcome : TransportKind → AttemptOutcome)
    (h : outcome .httpStream = .rejected) :
    (connectToRemoteServer .httpFirst outcome).1 = [.httpStream, .sse] ∧
    (connectToRemoteServer .httpFirst outcome).1.count .httpStream = 1 ∧
    (connectToRemoteServer .httpFirst outcome).1.count .sse = 1 ∧
    (connectToRemoteServer .httpFirst outcome).2 =
      (if outcome .sse = .accepted then some .sse else none) := by
  cases hsse : outcome .sse <;>
    simp [connectToRemoteServer, fallbackOrder, tryTransports, h, hsse,
      List.count_cons]

/-- Witness for C4: a remote that rejects both transports is attempted
exactly once on each kind and yields no session. -/
theorem C4_http_first_falls_back_once_witness :
    (connectToRemoteServer .httpFirst (fun _ => .rejected)).1 =
      [.httpStream, .sse] ∧
    (connectToRemoteServer .httpFirst (fun _ => .rejected)).1.count
      .httpStream = 1 ∧
    (connectToRemoteServer .httpFirst (fun _ => .rejected)).1.count .sse = 1 ∧
    (connectToRemoteServer .httpFirst (fun _ => .rejected)).2 =
      (if (fun _ => AttemptOutcome.rejected) TransportKind.sse = .accepted
        then some .sse else none) :=
  C4_http_first_falls_back_once (fun _ => .rejected) rfl

/-- An exhaustive unsuccessful scan: no instant in the window holds a
token. -/
theorem firstTokenObservation_isNone (store : Nat → Option OAuthTokens) :
    ∀ (r t : Nat), (∀ u, t ≤ u → u < t + r → store u = none) →
      firstTokenObservation store t r = none := by
  intro r
  induction r with
  | zero => intro t _; rfl
  | succ r ih =>
    intro t h
    have h0 : store t = none := h t le_rfl (by omega)
    simp only [firstTokenObservation, h0, Option.isSome_none, Bool.false_eq_true,
      if_false]
    exact ih (t + 1) (fun u hu1 hu2 => h u (by omega) (by omega))

/-- A successful scan returns the first instant in the window at which the
store holds a token. -/
theorem firstTokenObservation_eq_some (store : Nat → Option OAuthTokens) :
    ∀ (r t u : Nat), firstTokenObservation store t r = some u →
      t ≤ u ∧ u < t + r ∧ (store u).isSome = true ∧
        ∀ w, t ≤ w → w < u → store w = none := by
  intro r
  induction r with
  | zero => intro t u h; exact Option.noConfusion h
  | succ r ih =>
    intro t u h
    by_cases h0 : (store t).isSome = true
    · simp only [firstTokenObservation, h0, if_true, Option.some.injEq] at h
      subst h
      exact ⟨le_rfl, by omega, h0, fun w hw1 hw2 => absurd hw1 (by omega)⟩
    · simp only [firstTokenObservation, h0, if_false] at h
      obtain ⟨h1, h2, h3, h4⟩ := ih (t + 1) u h
      refine ⟨by omega, by omega, h3, ?_⟩
      intro w hw1 hw2
      rcases Nat.eq_or_lt_of_le hw1 with e | lt
      · rw [← e]
        exact Option.not_isSome_iff_eq_none.mp (by simpa using h0)
      · exact h4 w (by omega) hw2

/-- C5: a follower run polls the credential store bounded by the caller's
timeout and fails when no TokenSet appears within it; when one appears, the
run applies the settle margin after the first observation and only then
reads the tokens from disk — and the caller's settle margin (src/proxy.ts
authInitializer) is the fixed positive delay applied exactly when
authentication was completed by another instance. -/
theorem C5_follower_settle_margin (store : Nat → Option OAuthTokens)
    (timeout settle : Nat) :
    ((∀ t, t ≤ timeout → store t = none) →
      followerAwaitTokens store timeout settle = none) ∧
    (∀ tRead v, followerAwaitTokens store timeout settle = some (tRead, v) →
      ∃ tObs, tObs ≤ timeout ∧ (store tObs).isSome = true ∧
        (∀ w, w < tObs → store w = none) ∧
        tRead = tObs + settle ∧ v = store (tObs + settle)) ∧
    authInitializerDelayMs true = authInitializerSettleDelayMs ∧
    0 < authInitializerSettleDelayMs := by
  refine ⟨?_, ?_, rfl, by decide⟩
  · intro h
    unfold followerAwaitTokens
    rw [firstTokenObservation_isNone store (timeout + 1) 0
      (fun u _ hu2 => h u (by omega))]
  · intro tRead v h
    unfold followerAwaitTokens at h
    cases hobs : firstTokenObservation store 0 (timeout + 1) with
    | none => rw [hobs] at h; exact Option.noConfusion h
    | some tObs =>
      rw [hobs] at h
      obtain ⟨_, h2, h3, h4⟩ := firstTokenObservation_eq_some store _ _ _ hobs
      simp only [Option.some.injEq, Prod.mk.injEq] at h
      exact ⟨tObs, by omega, h3, fun w hw => h4 w (by omega) hw,
        h.1.symm, h.2.symm⟩

/-- Witness for C5: a store where the token appears at instant 2, timeout 5,
settle margin 3 — the read happens at instant 5; and an always-empty store
times out. -/
theorem C5_follower_settle_margin_witness :
    (followerAwaitTokens (fun _ => none) 5 3 = none) ∧
    (∃ tObs, tObs ≤ 5 ∧
      ((fun t => if 2 ≤ t then
          some { access_token := "A" : OAuthTokens } else none) tObs).isSome = true ∧
      (∀ w, w < tObs →
        (fun t => if 2 ≤ t then
          some { access_token := "A" : OAuthTokens } else none) w = none) ∧
      (5 : Nat) = tObs + 3 ∧
      (some { access_token := "A" : OAuthTokens } : Option OAuthTokens) =
        (fun t => if 2 ≤ t then
          some { access_token := "A" : OAuthTokens } else none) (tObs + 3)) :=
  ⟨(C5_follower_settle_margin (fun _ => none) 5 3).1 (fun _ _ => rfl),
   (C5_follower_settle_margin
      (fun t => if 2 ≤ t then some { access_token := "A" : OAuthTokens } else none)
      5 3).2.1 5 (some { access_token := "A" : OAuthTokens }) (by decide)⟩

/-- A successful optional-file read returns the configured file's contents
and certifies the file exists. -/
theorem readConfiguredFile_ok (fs : FileSystem) (p : Option String) {v : Option String}
    (h : readConfiguredFile fs p = .ok v) :
    v = (configuredPath p).bind fs ∧
      ∀ q, configuredPath p = some q → (fs q).isSome = true := by
  unfold readConfiguredFile at h
  cases hc : configuredPath p with
  | none =>
    simp only [hc] at h
    injection h with e
    subst e
    exact ⟨rfl, fun q hq => Option.noConfusion hq⟩
  | some path =>
    simp only [hc] at h
    cases hf : fs path with
    | none =>
      simp only [hf] at h
      exact Except.noConfusion h
    | some bytes =>
      simp only [hf] at h
      injection h with e
      subst e
      refine ⟨by simp [hf], ?_⟩
      intro q hq
      injection hq with e
      subst e
      simp [hf]

/-- C3: for every TLS configuration, if any referenced file is missing or
unreadable the build raises the load error and constructs no agent; and a
successful build is never partial — the agent's connect options hold the
contents of every referenced file (cert, key and CA exactly as configured),
so every referenced file was loaded. -/
theorem C3_tls_build_atomic_identity (cfg : TLSClientCertConfig) (fs : FileSystem) :
    ((∃ p, p ∈ referencedPaths cfg ∧ fs p = none) →
      ∃ e, createTLSAgent cfg fs = .error e) ∧
    (∀ agent logs, createTLSAgent cfg fs = .ok (agent, logs) →
      agent.connect.cert = (configuredPath cfg.cert).bind fs ∧
      agent.connect.key = (configuredPath cfg.key).bind fs ∧
      agent.connect.ca = (configuredPath cfg.ca).bind fs ∧
      ∀ p, p ∈ referencedPaths cfg → (fs p).isSome = true) := by
  have hok : ∀ agent logs, createTLSAgent cfg fs = .ok (agent, logs) →
      agent.connect.cert = (configuredPath cfg.cert).bind fs ∧
      agent.connect.key = (configuredPath cfg.key).bind fs ∧
      agent.connect.ca = (configuredPath cfg.ca).bind fs ∧
      ∀ p, p ∈ referencedPaths cfg → (fs p).isSome = true := by
    intro agent logs h
    unfold createTLSAgent at h
    cases hc : readConfiguredFile fs cfg.cert with
    | error e => rw [hc] at h; exact Except.noConfusion h
    | ok certBytes =>
      rw [hc] at h
      cases hk : readConfiguredFile fs cfg.key with
      | error e => rw [hk] at h; exact Except.noConfusion h
      | ok keyBytes =>
        rw [hk] at h
        cases ha : readConfiguredFile fs cfg.ca with
        | error e => rw [ha] at h; exact Except.noConfusion h
        | ok caBytes =>
          rw [ha] at h
          injection h with e
          obtain ⟨hcv, hcw⟩ := readConfiguredFile_ok fs cfg.cert hc
          obtain ⟨hkv, hkw⟩ := readConfiguredFile_ok fs cfg.key hk
          obtain ⟨hav, haw⟩ := readConfiguredFile_ok fs cfg.ca ha
          have hag : agent = { connect :=
              { cert := certBytes, key := keyBytes, ca := caBytes,
                passphrase := configuredPath cfg.passphrase,
                rejectUnauthorized := cfg.rejectUnauthorized } } :=
            (congrArg Prod.fst e).symm
          subst hag
          refine ⟨hcv, hkv, hav, ?_⟩
          intro p hp
          unfold referencedPaths at hp
          rcases List.mem_append.mp hp with hp | hp
          · rcases List.mem_append.mp hp with hp | hp
            · exact hcw p (Option.mem_def.mp (Option.mem_toList.mp hp))
            · exact hkw p (Option.mem_def.mp (Option.mem_toList.mp hp))
          · exact haw p (Option.mem_def.mp (Option.mem_toList.mp hp))
  refine ⟨?_, hok⟩
  rintro ⟨p, hp, hmiss⟩
  cases hres : createTLSAgent cfg fs with
  | error e => exact ⟨e, rfl⟩
  | ok pr =>
    have := (hok pr.1 pr.2 (by rw [hres])).2.2.2 p hp
    rw [hmiss] at this
    exact Bool.noConfusion this

/-- Witness for C3: a configuration referencing a missing certificate fails,
and one whose certificate file exists builds the full identity. -/
theorem C3_tls_build_atomic_identity_witness :
    (∃ e, createTLSAgent { cert := some "missing.pem" } (fun _ => none) =
      .error e) ∧
    ((fun q => if q = "cert.pem" then some "CERT" else none) "cert.pem").isSome
      = true :=
  ⟨(C3_tls_build_atomic_identity { cert := some "missing.pem" } (fun _ => none)).1
      ⟨"missing.pem", by decide, rfl⟩,
   ((C3_tls_build_atomic_identity { cert := some "cert.pem" }
        (fun q => if q = "cert.pem" then some "CERT" else none)).2
      { connect := { cert := some "CERT" } }
      [.loadedClientCert "cert.pem"] rfl).2.2.2 "cert.pem" (by decide)⟩

/-- C6: the custom TLS agent is built at most once, in the provider
constructor, and only when a TLS client-certificate configuration is
supplied; getCustomAgent returns exactly the stored agent, and none of the
provider's later operations (clientInformation, saveClientInformation,
invalidateCredentials, getAuthorizationServerMetadata) rebuilds or replaces
it. -/
theorem C6_custom_agent_built_once (opts : OAuthProviderOptions)
    (fs : FileSystem) (p : NodeOAuthClientProvider)
    (h : mkProvider opts fs = .ok p) :
    getCustomAgent p = p.customAgent ∧
    (opts.tlsClientCert = none → p.customAgent = none) ∧
    (∀ cfg, opts.tlsClientCert = some cfg →
      ∃ agent logs, createTLSAgent cfg fs = .ok (agent, logs) ∧
        p.customAgent = some agent) ∧
    (∀ store, (clientInformation p store).1.customAgent = p.customAgent) ∧
    (∀ store ci, (saveClientInformation p store ci).1.customAgent = p.customAgent) ∧
    (∀ store scope, (invalidateCredentials p store scope).1.customAgent = p.customAgent) ∧
    (∀ fetched, (getAuthorizationServerMetadataOp p fetched).1.customAgent = p.customAgent) := by
  refine ⟨rfl, ?_, ?_, ?_, fun _ _ => rfl, ?_, ?_⟩
  · intro hnone
    unfold mkProvider at h
    rw [hnone] at h
    injection h with e
    subst e
    rfl
  · intro cfg hcfg
    unfold mkProvider at h
    rw [hcfg] at h
    cases hc : createTLSAgent cfg fs with
    | error e =>
      simp only [hc] at h
      exact Except.noConfusion h
    | ok pr =>
      simp only [hc] at h
      injection h with e
      subst e
      exact ⟨pr.1, pr.2, rfl, rfl⟩
  · intro store
    unfold clientInformation
    cases p.staticOAuthClientInfo with
    | some info => rfl
    | none =>
      cases store.clientInfo with
      | some ci => rfl
      | none => rfl
  · intro store scope
    cases scope <;> rfl
  · intro fetched
    unfold getAuthorizationServerMetadataOp
    cases p.authorizationServerMetadata with
    | some md => rfl
    | none => rfl

/-- Witness for C6 at a concrete provider built without a TLS
configuration. -/
theorem C6_custom_agent_built_once_witness :
    getCustomAgent c6Provider = c6Provider.customAgent ∧
    (c6Options.tlsClientCert = none → c6Provider.customAgent = none) ∧
    (∀ cfg, c6Options.tlsClientCert = some cfg →
      ∃ agent logs, createTLSAgent cfg (fun _ => none) = .ok (agent, logs) ∧
        c6Provider.customAgent = some agent) ∧
    (∀ store, (clientInformation c6Provider store).1.customAgent =
      c6Provider.customAgent) ∧
    (∀ store ci, (saveClientInformation c6Provider store ci).1.customAgent =
      c6Provider.customAgent) ∧
    (∀ store scope, (invalidateCredentials c6Provider store scope).1.customAgent =
      c6Provider.customAgent) ∧
    (∀ fetched, (getAuthorizationServerMetadataOp c6Provider fetched).1.customAgent =
      c6Provider.customAgent) :=
  C6_custom_agent_built_once c6Options (fun _ => none) c6Provider rfl

theorem warningCount_append (a b : List LogEvent) :
    warningCount (a ++ b) = warningCount a + warningCount b := by
  simp [warningCount, List.filter_append]

/-- Load-success log lines are never the verification warning. -/
theorem warningCount_loadLog (mk : String → LogEvent)
    (hmk : ∀ path, mk path ≠ .tlsVerifyDisabledWarning) (p : Option String) :
    warningCount (loadLog mk p) = 0 := by
  unfold loadLog
  cases configuredPath p with
  | none => rfl
  | some path => simp [warningCount, List.filter, hmk path]

/-- C7: when rejectUnauthorized is absent from the TLS configuration, a
successful build never sets the option — certificate verification stays at
the library default of true — and logs no warning; when it is explicitly
false, a successful build logs the warning exactly once; when explicitly
true, the option is set and no warning is logged. -/
theorem C7_reject_unauthorized_default_and_warning (cfg : TLSClientCertConfig)
    (fs : FileSystem) :
    (cfg.rejectUnauthorized = none →
      ∀ agent logs, createTLSAgent cfg fs = .ok (agent, logs) →
        agent.connect.rejectUnauthorized = none ∧
        effectiveRejectUnauthorized agent = true ∧ warningCount logs = 0) ∧
    (cfg.rejectUnauthorized = some false →
      ∀ agent logs, createTLSAgent cfg fs = .ok (agent, logs) →
        agent.connect.rejectUnauthorized = some false ∧ warningCount logs = 1) ∧
    (cfg.rejectUnauthorized = some true →
      ∀ agent logs, createTLSAgent cfg fs = .ok (agent, logs) →
        agent.connect.rejectUnauthorized = some true ∧ warningCount logs = 0) := by
  have main : ∀ agent logs, createTLSAgent cfg fs = .ok (agent, logs) →
      agent.connect.rejectUnauthorized = cfg.rejectUnauthorized ∧
      warningCount logs =
        (match cfg.rejectUnauthorized with
         | some false => 1
         | _ => 0) := by
    intro agent logs h
    unfold createTLSAgent at h
    cases hc : readConfiguredFile fs cfg.cert with
    | error e => rw [hc] at h; exact Except.noConfusion h
    | ok certBytes =>
      rw [hc] at h
      cases hk : readConfiguredFile fs cfg.key with
      | error e => rw [hk] at h; exact Except.noConfusion h
      | ok keyBytes =>
        rw [hk] at h
        cases ha : readConfiguredFile fs cfg.ca with
        | error e => rw [ha] at h; exact Except.noConfusion h
        | ok caBytes =>
          rw [ha] at h
          injection h with e
          have hag := congrArg Prod.fst e
          have hlg := congrArg Prod.snd e
          simp only at hag hlg
          subst hag
          subst hlg
          refine ⟨rfl, ?_⟩
          rw [warningCount_append, warningCount_append, warningCount_append]
          rw [warningCount_loadLog _ (fun path h => LogEvent.noConfusion h) _,
            warningCount_loadLog _ (fun path h => LogEvent.noConfusion h) _,
            warningCount_loadLog _ (fun path h => LogEvent.noConfusion h) _]
          cases hru : cfg.rejectUnauthorized with
          | none => rfl
          | some b => cases b <;> rfl
  refine ⟨?_, ?_, ?_⟩
  · intro hru agent logs h
    obtain ⟨h1, h2⟩ := main agent logs h
    rw [hru] at h1 h2
    exact ⟨h1, by rw [effectiveRejectUnauthorized, h1]; rfl, h2⟩
  · intro hru agent logs h
    obtain ⟨h1, h2⟩ := main agent logs h
    rw [hru] at h1 h2
    exact ⟨h1, h2⟩
  · intro hru agent logs h
    obtain ⟨h1, h2⟩ := main agent logs h
    rw [hru] at h1 h2
    exact ⟨h1, h2⟩

/-- Witness for C7 at concrete configurations: absent rejectUnauthorized
leaves the option unset with no warning; an explicit false logs the warning
exactly once. -/
theorem C7_reject_unauthorized_default_and_warning_witness :
    ((Agent.mk { }).connect.rejectUnauthorized = none ∧
      effectiveRejectUnauthorized (Agent.mk { }) = true ∧
      warningCount [] = 0) ∧
    ((Agent.mk { rejectUnauthorized := some false }).connect.rejectUnauthorized
        = some false ∧
      warningCount [.tlsVerifyDisabledWarning] = 1) :=
  ⟨(C7_reject_unauthorized_default_and_warning { } (fun _ => none)).1
      rfl (Agent.mk { }) [] rfl,
   (C7_reject_unauthorized_default_and_warning
        { rejectUnauthorized := some false } (fun _ => none)).2.1
      rfl (Agent.mk { rejectUnauthorized := some false })
      [.tlsVerifyDisabledWarning] rfl⟩

theorem findValue_filter_append (l : List (String × String)) (k v : String) :
    findValue k (l.filter (fun kv => kv.1 ≠ k) ++ [(k, v)]) = some v := by
  induction l with
  | nil => simp [findValue]
  | cons hd tl ih =>
    by_cases h : hd.1 = k
    · simpa [List.filter_cons, h] using ih
    · simpa [List.filter_cons, h, findValue] using ih

/-- After URLSearchParams.set, the key maps to the value just set. -/
theorem getParam_setParam (u : AuthUrl) (k v : String) :
    getParam (setParam u k v) k = some v :=
  findValue_filter_append u.params k v

/-- C8: every leader authorization attempt emits the authorization URL to
the user before the browser-open attempt, and a failure of the open call is
caught — the method completes normally for both outcomes with the final URL
(carrying the effective scope) available for manual use. -/
theorem C8_url_emitted_before_browser_open (p : NodeOAuthClientProvider)
    (url : AuthUrl) (browser : BrowserOutcome) :
    ∃ finalUrl tail,
      redirectToAuthorization p url browser =
        (finalUrl, LogEvent.emitAuthorizationUrl finalUrl.base :: tail) ∧
      (∀ u, browser = .ok u → tail = [.browserOpened]) ∧
      (∀ err, browser = .error err → tail = [.browserOpenFailedNotice]) ∧
      getParam finalUrl "scope" = some (getEffectiveScope p) := by
  cases browser with
  | ok u =>
    cases hres : p.authorizeResource with
    | none =>
      exact ⟨setParam url "scope" (getEffectiveScope p), [.browserOpened],
        by simp [redirectToAuthorization, hres],
        fun _ _ => rfl, fun err h => Except.noConfusion h,
        getParam_setParam _ _ _⟩
    | some r =>
      exact ⟨setParam (setParam url "resource" r) "scope" (getEffectiveScope p),
        [.browserOpened], by simp [redirectToAuthorization, hres],
        fun _ _ => rfl, fun err h => Except.noConfusion h,
        getParam_setParam _ _ _⟩
  | error e =>
    cases hres : p.authorizeResource with
    | none =>
      exact ⟨setParam url "scope" (getEffectiveScope p), [.browserOpenFailedNotice],
        by simp [redirectToAuthorization, hres],
        fun u h => Except.noConfusion h, fun _ _ => rfl,
        getParam_setParam _ _ _⟩
    | some r =>
      exact ⟨setParam (setParam url "resource" r) "scope" (getEffectiveScope p),
        [.browserOpenFailedNotice], by simp [redirectToAuthorization, hres],
        fun u h => Except.noConfusion h, fun _ _ => rfl,
        getParam_setParam _ _ _⟩

/-- C9 counterexample: the URL constructor runs before the try block of
fetchAuthorizationServerMetadata, so with the unparsable server URL
not-a-url the call throws (rejects) instead of returning undefined — the
claim that it never throws for every server URL fails. -/
theorem C9_counterexample_invalid_url_throws :
    fetchAuthorizationServerMetadata "not-a-url" (.networkError "boom") =
      .error (.invalidURL "not-a-url") := rfl

/-- C9 amended: for every server URL the URL constructor accepts, the
function never throws; it returns the parsed metadata object exactly when
the HTTP response is ok and its body parses, and undefined for every non-ok
status and every network, timeout, or parse error. -/
theorem C9_total_for_parsable_urls (serverUrl : String) (outcome : FetchOutcome)
    (h : (parseURL serverUrl).isSome = true) :
    ∃ r : Option AuthorizationServerMetadata,
      fetchAuthorizationServerMetadata serverUrl outcome = .ok r ∧
      (∀ md, r = some md ↔
        ∃ status, outcome = .response true status (.ok md)) := by
  obtain ⟨u, hu⟩ := Option.isSome_iff_exists.mp h
  unfold fetchAuthorizationServerMetadata getMetadataUrl
  rw [hu]
  refine ⟨_, rfl, ?_⟩
  intro md
  cases outcome with
  | networkError msg => simp
  | response ok status body =>
    cases ok with
    | false => simp
    | true =>
      cases body with
      | ok md2 =>
        simp only [if_true]
        constructor
        · intro e
          injection e with e
          exact ⟨status, by rw [e]⟩
        · rintro ⟨status2, e⟩
          injection e with _ _ e
          injection e with e
          rw [e]
      | error msg => simp

/-- Witness for C9 amended, at a parsable URL and an ok response. -/
theorem C9_total_for_parsable_urls_witness :
    ∃ r : Option AuthorizationServerMetadata,
      fetchAuthorizationServerMetadata "https://example.com/mcp"
          (.response true 200 (.ok { issuer := "https://example.com" })) =
        .ok r ∧
      (∀ md, r = some md ↔
        ∃ status,
          (FetchOutcome.response true 200
            (.ok { issuer := "https://example.com" })) =
            .response true status (.ok md)) :=
  C9_total_for_parsable_urls "https://example.com/mcp"
    (.response true 200 (.ok { issuer := "https://example.com" })) rfl

/-- 0 < trim length is exactly: the trimmed string is non-empty. -/
theorem trim_length_pos_iff (s : String) : 0 < s.trim.length ↔ s.trim ≠ "" := by
  rw [Nat.pos_iff_ne_zero]
  constructor
  · intro h e
    exact h (by rw [e]; rfl)
  · intro h hlen
    apply h
    have hd : s.trim.data = [] := List.eq_nil_of_length_eq_zero hlen
    cases htrim : s.trim with
    | mk d =>
      rw [htrim] at hd
      rw [show ("" : String) = ⟨[]⟩ from rfl]
      exact congrArg String.mk hd

/-- The server-metadata levels of the priority agree with the spec's
formulation. -/
theorem scopeFromServerMetadata_spec (p : NodeOAuthClientProvider) :
    scopeFromServerMetadata p =
      (p.authorizationServerMetadata.bind fun md =>
        md.scopes_supported.bind fun scopes =>
          if scopes ≠ [] then some (String.intercalate " " scopes)
          else none).getD "openid email profile" := by
  unfold scopeFromServerMetadata
  cases h3 : p.authorizationServerMetadata with
  | none => simp
  | some md =>
    cases h4 : md.scopes_supported with
    | none => simp [h4]
    | some scopes =>
      by_cases h5 : scopes = []
      · subst h5
        simp [h4]
      · simp [h4, h5, List.length_pos.mpr h5]

/-- The registered-client-information level of the priority agrees with the
spec's formulation. -/
theorem scopeFromClientInfo_spec (p : NodeOAuthClientProvider) :
    scopeFromClientInfo p =
      (((p.clientInfo.bind OAuthClientInformationFull.scope).filter
          (fun s => s.trim ≠ "")).or
        (p.authorizationServerMetadata.bind fun md =>
          md.scopes_supported.bind fun scopes =>
            if scopes ≠ [] then some (String.intercalate " " scopes)
            else none)).getD "openid email profile" := by
  unfold scopeFromClientInfo
  cases h2 : p.clientInfo.bind OAuthClientInformationFull.scope with
  | some s2 =>
    by_cases hs2 : 0 < s2.trim.length
    · simp [Option.filter, Option.or, hs2,
        decide_eq_true ((trim_length_pos_iff s2).mp hs2)]
    · have hnn : ¬(s2.trim ≠ "") :=
        fun hx => hs2 ((trim_length_pos_iff s2).mpr hx)
      simp [Option.filter, Option.or, hs2, decide_eq_false hnn,
        scopeFromServerMetadata_spec]
  | none =>
    simp [Option.filter, Option.or, scopeFromServerMetadata_spec]

/-- The code's scope selection equals the spec's four-level priority. -/
theorem getEffectiveScope_eq_spec (p : NodeOAuthClientProvider) :
    getEffectiveScope p = effectiveScopeSpec p := by
  unfold getEffectiveScope effectiveScopeSpec
  cases h1 : p.staticOAuthClientMetadata.bind OAuthClientMetadata.scope with
  | some s =>
    by_cases hs : 0 < s.trim.length
    · simp [Option.filter, Option.or, hs,
        decide_eq_true ((trim_length_pos_iff s).mp hs)]
    · have hnn : ¬(s.trim ≠ "") :=
        fun hx => hs ((trim_length_pos_iff s).mpr hx)
      simp [Option.filter, Option.or, hs, decide_eq_false hnn,
        scopeFromClientInfo_spec]
  | none =>
    simp [Option.filter, Option.or, scopeFromClientInfo_spec]

/-- C10: the effective OAuth scope follows the fixed four-level priority
exactly as specified, it is the scope placed in the client metadata, and it
is the scope appended to every authorization URL. -/
theorem C10_effective_scope_priority (p : NodeOAuthClientProvider)
    (url : AuthUrl) (browser : BrowserOutcome) :
    getEffectiveScope p = effectiveScopeSpec p ∧
    clientMetadataScope p = effectiveScopeSpec p ∧
    getParam (redirectToAuthorization p url browser).1 "scope" =
      some (effectiveScopeSpec p) := by
  refine ⟨getEffectiveScope_eq_spec p, getEffectiveScope_eq_spec p, ?_⟩
  rw [← getEffectiveScope_eq_spec p]
  unfold redirectToAuthorization
  cases p.authorizeResource <;> exact getParam_setParam _ _ _

end McpRemote